import Mathlib

/-!
Verification of the XYZ Hub Connector core (layer.py and network.py)
against its natural-language specification.

The development shallowly embeds the Python source:
* Python `dict`s (insertion ordered) become association lists
  `List (String × α)` with lookup / set / setdefault-append helpers that
  mirror the `dict` operations used by the source.
* Python string operations used by the source (`str.replace`,
  `str.partition`, `str.join`, `str(int)`, the `in` substring test) are
  given executable structural definitions with the same semantics.
* Stateful code (the layer registry, the QGIS layer-tree node the
  provenance metadata is saved on) becomes explicit state passing.
* Fallible code (assertions, raised exceptions) returns `Except`/`Option`.
-/

/-! ### Python string primitives -/

/-- Python `pat in s` substring test, specialised to character lists. -/
def strContains (s pat : List Char) : Bool :=
  match s with
  | [] => pat.isPrefixOf []
  | _ :: rest => pat.isPrefixOf s || strContains rest pat

/-- Auxiliary structural recursion for `pyReplace`.  The `skip` counter
steps over the characters of a just-matched occurrence, so the recursion
is structural on the character list (Python's `str.replace` replaces
non-overlapping occurrences left to right). -/
def replAux (old new : List Char) : List Char → Nat → List Char
  | [], _ => []
  | _ :: rest, Nat.succ k => replAux old new rest k
  | c :: rest, 0 =>
    if old ≠ [] ∧ old.isPrefixOf (c :: rest) then
      new ++ replAux old new rest (old.length - 1)
    else
      c :: replAux old new rest 0

/-- Python `s.replace(old, new)`; for the empty pattern (never passed by
the source) the string is returned unchanged. -/
def pyReplace (s old new : String) : String :=
  ⟨replAux old.data new.data s.data 0⟩

/-- Split a character list at the first occurrence of `sep`:
`some (before, after)` with the occurrence removed, or `none`. -/
def partList (sep : List Char) : List Char → Option (List Char × List Char)
  | [] => none
  | c :: rest =>
    if sep.isPrefixOf (c :: rest) then
      some ([], (c :: rest).drop sep.length)
    else
      (partList sep rest).map (fun p => (c :: p.1, p.2))

/-- Python `s.partition(sep)`: `(before, sep, after)` at the first
occurrence of `sep`, or `(s, "", "")` when `sep` does not occur. -/
def pyPartition (s sep : String) : String × String × String :=
  match partList sep.data s.data with
  | some p => (⟨p.1⟩, sep, ⟨p.2⟩)
  | none => (s, "", "")

/-- Python `sep.join(xs)`. -/
def pyJoin (sep : String) (xs : List String) : String :=
  String.intercalate sep xs

/-- Fuel-based little-endian base-10 digit list (`fuel ≥ n` suffices). -/
def natDigitsAux : Nat → Nat → List Nat
  | 0, _ => []
  | _ + 1, 0 => []
  | fuel + 1, n + 1 => ((n + 1) % 10) :: natDigitsAux fuel ((n + 1) / 10)

/-- Python `str(n)` for a non-negative integer: decimal, no leading
zeros, `"0"` for zero. -/
def pyStrNat (n : Nat) : String :=
  if n = 0 then "0"
  else ⟨((natDigitsAux n n).reverse.map Nat.digitChar)⟩

/-! ### Python dict primitives (insertion-ordered association lists) -/

/-- `d.get(k)` / `d[k]` lookup. -/
def dlookup (m : List (String × α)) (k : String) : Option α :=
  (m.find? (fun p => p.1 == k)).map (·.2)

/-- `k in d`. -/
def dhas (m : List (String × α)) (k : String) : Bool :=
  (m.find? (fun p => p.1 == k)).isSome

/-- `d[k] = v`: overwrite in place when the key exists (Python dicts keep
the original insertion position; keys are unique, so the first match is
the only one), otherwise append. -/
def dset : List (String × α) → String → α → List (String × α)
  | [], k, v => [(k, v)]
  | (k', w) :: m, k, v =>
    if k' == k then (k', v) :: m else (k', w) :: dset m k v

/-- `d.setdefault(k, []).append(v)`: append `v` to the list stored at
`k`, creating the entry (at the end, as `setdefault` does) if absent. -/
def dappendAt : List (String × List β) → String → β → List (String × List β)
  | [], k, v => [(k, [v])]
  | (k', w) :: m, k, v =>
    if k' == k then (k', w ++ [v]) :: m else (k', w) :: dappendAt m k v

/-! ### Python values (the JSON-able subset the source stores) -/

/-- A Python value of the JSON-able subset handled by the source:
strings, integers, lists and (insertion-ordered, string-keyed) dicts. -/
inductive PyObj where
  | pstr (s : String)
  | pint (n : Nat)
  | plist (l : List PyObj)
  | pdict (d : List (String × PyObj))

/-- Python `d.get(k, default)` on a dict value (the source only calls it
on dicts; on a non-dict the default is returned). -/
def PyObj.dget (o : PyObj) (k : String) (default : PyObj) : PyObj :=
  match o with
  | .pdict d => (dlookup d k).getD default
  | _ => default

/-- Python `str(v)` as used inside `str.format` fields. -/
def pyStrOf : PyObj → String
  | .pstr s => s
  | .pint n => pyStrNat n
  | .plist _ => "<list>"
  | .pdict _ => "<dict>"

/-! ### External collaborators modelled from the spec

`SpaceConnectionInfo` (models/space_model) and Python's `json` module are
not part of the two source files under verification; the spec fixes their
contract: the persisted connection descriptor and space metadata "must
round-trip exactly through a save/reload cycle" (§6). -/

/-- Modelled from the spec: `SpaceConnectionInfo` (the ConnectionDescriptor
of §3, defined in the repository's `models` package, absent from the
sampled source): base URL, space identifier, authentication token. -/
structure SpaceConnectionInfo where
  server : String
  space_id : String
  token : String
deriving DecidableEq, Repr

/-- Modelled from the spec: `SpaceConnectionInfo.to_dict` serialises every
field (credentials included, §6) into a JSON-able dict. -/
def SpaceConnectionInfo.to_dict (c : SpaceConnectionInfo) : PyObj :=
  .pdict [("server", .pstr c.server), ("space_id", .pstr c.space_id),
          ("token", .pstr c.token)]

/-- Modelled from the spec: `SpaceConnectionInfo.from_dict`, the inverse of
`to_dict` (§6 requires the descriptor to round-trip exactly). -/
def SpaceConnectionInfo.from_dict (o : PyObj) : Option SpaceConnectionInfo :=
  match o with
  | .pdict d =>
    match dlookup d "server", dlookup d "space_id", dlookup d "token" with
    | some (.pstr s), some (.pstr i), some (.pstr t) =>
      some ⟨s, i, t⟩
    | _, _, _ => none
  | _ => none

/-- Modelled from the spec: the text produced by Python's `json.dumps`
(standard library, not repository code).  §6 and §8 require the persisted
JSON values to round-trip exactly through `dumps`/`loads`, so the
serialised text is modelled as an exact encoding carrying its decoded
value. -/
structure JsonText where
  decoded : PyObj

/-- Modelled from the spec: `json.dumps(o, ensure_ascii=False)`. -/
def json_dumps (o : PyObj) : JsonText := ⟨o⟩

/-- Modelled from the spec: `json.loads`, the exact inverse of
`json_dumps` on its image. -/
def json_loads (t : JsonText) : PyObj := t.decoded

/-! ### QGIS collaborators modelled from the spec

The QGIS layer tree (`qnode`, its sub-groups, their layers) and the
`QgsWkbTypes` display-name helpers live in the QGIS library, outside the
repository.  They are modelled as plain data: a node carries a name, a
key-value custom-property store and an ordered list of sub-groups, each
holding an ordered list of layers. -/

/-- A vector layer as far as the two source files observe it: the
display string of its wkb type (`QgsWkbTypes.displayString(wkbType())`),
its display name, and an opaque fields handle (`vlayer.fields()`). -/
structure VLayer where
  geomStr : String
  layerName : String
  fieldsOf : Nat
deriving DecidableEq, Repr

/-- A QGIS custom-property value (`QVariant`) of the shapes the source
stores: plain strings, numbers, and JSON text from `json.dumps`. -/
inductive QVariant where
  | vstr (s : String)
  | vnat (n : Nat)
  | vjson (t : JsonText)

/-- A geometry sub-group of the main layer-tree group: its name and its
layers in insertion order (`findLayers()` order). -/
structure QGroup where
  name : String
  layers : List VLayer

/-- The main layer-tree group node: `name()`, the custom-property store,
and its sub-groups in tree order (`findGroups()` order). -/
structure QNode where
  nodeName : String
  props : List (String × QVariant)
  groups : List QGroup

/-- `qnode.setCustomProperty(k, v)`. -/
def QNode.setCustomProperty (n : QNode) (k : String) (v : QVariant) : QNode :=
  { n with props := dset n.props k v }

/-- `qnode.customProperty(k)`. -/
def QNode.customProperty (n : QNode) (k : String) : Option QVariant :=
  dlookup n.props k

/-! ### layer.py — `XYZLayer` -/

/-- `XYZLayer.NO_GEOM`. -/
def NO_GEOM : String := "No geometry"

/-- `XYZLayer.GEOM_ORDER`: display-group ordering
Point < Line < Polygon < Unknown geometry < No geometry. -/
def GEOM_ORDER : List (String × Nat) :=
  [("Point", 0), ("Line", 1), ("Polygon", 2),
   ("Unknown geometry", 3), (NO_GEOM, 4)]

/-- Modelled from the spec: the QGIS chain
`geometryDisplayString(geometryType(parseType(s)))` (QGIS library,
absent from the repository) collapses a wkb-type display string to its
geometry-category display name. -/
def qgisGeomDisplay (s : String) : String :=
  if s ∈ ["Point", "MultiPoint", "PointZ", "MultiPointZ"] then "Point"
  else if s ∈ ["LineString", "MultiLineString", "LineStringZ",
               "MultiLineStringZ"] then "Line"
  else if s ∈ ["Polygon", "MultiPolygon", "PolygonZ", "MultiPolygonZ"] then
    "Polygon"
  else "Unknown geometry"

/-- The `XYZLayer` object state: provenance fields plus the per-geometry
registries (`map_vlayer`, `map_fields`).  The `qgroups` cache of the
source maps names to live tree nodes; in this by-value model the cached
nodes are recovered by name lookup in the tree, which agrees with the
cache because sub-group names in the main node are unique. -/
structure XYZLayer where
  ext : String
  conn_info : SpaceConnectionInfo
  meta : PyObj
  tags : String
  unique : Nat
  group_name : String
  map_vlayer : List (String × List VLayer)
  map_fields : List (String × List Nat)

/-- `XYZLayer.__init__(conn_info, meta, tags, unique, group_name, ext)`.
`unique or int(time.time() * 10)` keeps a truthy `unique` argument and
falls back to the clock value (`now10`) when `unique` is `None` or `0`. -/
def XYZLayer.init (conn_info : SpaceConnectionInfo) (meta : PyObj)
    (tags : String) (uniqueArg : Option Nat) (group_name : String)
    (ext : String) (now10 : Nat) : XYZLayer :=
  let u := match uniqueArg with
    | some u => if u = 0 then now10 else u
    | none => now10
  { ext := ext, conn_info := conn_info, meta := meta, tags := tags,
    unique := u, group_name := group_name, map_vlayer := [],
    map_fields := [] }

/-- `XYZLayer.get_id`. -/
def XYZLayer.get_id (l : XYZLayer) : Nat := l.unique

/-- `XYZLayer._save_meta_node(qnode)`: stores the four provenance values
under their custom-property keys. -/
def XYZLayer.save_meta_node (l : XYZLayer) (n : QNode) : QNode :=
  let n1 := n.setCustomProperty "xyz-hub" (.vjson (json_dumps l.meta))
  let n2 := n1.setCustomProperty "xyz-hub-conn"
    (.vjson (json_dumps l.conn_info.to_dict))
  let n3 := n2.setCustomProperty "xyz-hub-tags" (.vstr l.tags)
  n3.setCustomProperty "xyz-hub-id" (.vnat l.get_id)

/-- `XYZLayer.has_layer(geom_str, idx)`. -/
def XYZLayer.has_layer (l : XYZLayer) (geom_str : String) (idx : Nat) :
    Bool :=
  dhas l.map_vlayer geom_str &&
    decide (idx < ((dlookup l.map_vlayer geom_str).getD []).length)

/-- `XYZLayer.get_layer(geom_str, idx)`:
`self.map_vlayer[geom_str][idx]`; `none` models the `KeyError` /
`IndexError` a failed lookup raises. -/
def XYZLayer.get_layer (l : XYZLayer) (geom_str : String) (idx : Nat) :
    Option VLayer :=
  (dlookup l.map_vlayer geom_str).bind (fun lst => lst[idx]?)

/-- `XYZLayer._add_layer(geom_str, vlayer, idx)`: `setdefault` the kind's
list, assert `idx == len(lst)` (the spec calls this failure
`PartitionIndexGap`; the source's assertion message is kept), append. -/
def XYZLayer.add_layer (l : XYZLayer) (geom_str : String) (v : VLayer)
    (idx : Nat) : Except String XYZLayer :=
  let lst := (dlookup l.map_vlayer geom_str).getD []
  if idx = lst.length then
    .ok { l with map_vlayer := dappendAt l.map_vlayer geom_str v }
  else
    .error "vlayer count mismatch"

/-- `XYZLayer._make_group_name(idx)`. -/
def XYZLayer.make_group_name (l : XYZLayer) (idx : Option Nat) : String :=
  let tags := if l.tags.length ≠ 0 then "-(" ++ l.tags ++ ")" else ""
  let title := pyStrOf (l.meta.dget "title" (.pstr ""))
  let id_ := pyStrOf (l.meta.dget "id" (.pstr ""))
  match idx with
  | none => title ++ "-" ++ id_ ++ tags
  | some i => title ++ "-" ++ id_ ++ tags ++ "-" ++ pyStrNat i

/-- `XYZLayer._group_geom_name(geom_str)`. -/
def group_geom_name (geom_str : String) : String :=
  if geom_str = "" then NO_GEOM else qgisGeomDisplay geom_str

/-- `XYZLayer._layer_name(geom_str, idx)`. -/
def XYZLayer.layer_name (l : XYZLayer) (geom_str : String) (idx : Nat) :
    String :=
  let tags := if l.tags.length ≠ 0 then "-(" ++ l.tags ++ ")" else ""
  let title := pyStrOf (l.meta.dget "title" (.pstr ""))
  let id_ := pyStrOf (l.meta.dget "id" (.pstr ""))
  title ++ "-" ++ id_ ++ tags ++ "-" ++ geom_str ++ "-" ++ pyStrNat idx

/-- `XYZLayer._db_layer_name(geom_str, idx)`. -/
def db_layer_name (geom_str : String) (idx : Nat) : String :=
  geom_str ++ "_" ++ pyStrNat idx

/-- `XYZLayer._layer_fname()`: `"{id}_{tags}_{unique}"` with commas in
the tag string replaced by underscores. -/
def XYZLayer.layer_fname (l : XYZLayer) : String :=
  let tags := if l.tags.length ≠ 0 then pyReplace l.tags "," "_" else ""
  pyStrOf (l.meta.dget "id" (.pstr "")) ++ "_" ++ tags ++ "_" ++
    pyStrNat l.unique

/-- The registry-rebuilding loop of `XYZLayer.load_from_qnode`: for each
sub-group (`findGroups()` order), for each of its layers (`findLayers()`
order), `setdefault`-append the layer (and its fields) under the display
string of its wkb type. -/
def loadMaps (gs : List QGroup) :
    List (String × List VLayer) × List (String × List Nat) :=
  gs.foldl
    (fun acc gr =>
      gr.layers.foldl
        (fun a v => (dappendAt a.1 v.geomStr v, dappendAt a.2 v.geomStr v.fieldsOf))
        acc)
    ([], [])

/-- `XYZLayer.load_from_qnode(qnode)`: read the four provenance
properties, decode them, rebuild the object through the constructor
(passing the wall clock through as `now10`), then rebuild the
per-geometry registries from the node's sub-groups.  `none` models the
exception a missing/ill-typed property or a failed decode raises. -/
def XYZLayer.load_from_qnode (qnode : QNode) (now10 : Nat) :
    Option XYZLayer :=
  match qnode.customProperty "xyz-hub", qnode.customProperty "xyz-hub-conn",
      qnode.customProperty "xyz-hub-tags",
      qnode.customProperty "xyz-hub-id" with
  | some (.vjson tmeta), some (.vjson tconn), some (.vstr tags),
      some (.vnat unique) =>
    let meta := json_loads tmeta
    match SpaceConnectionInfo.from_dict (json_loads tconn) with
    | some conn_info =>
      let obj := XYZLayer.init conn_info meta tags (some unique)
        qnode.nodeName "gpkg" now10
      some { obj with
        map_vlayer := (loadMaps qnode.groups).1,
        map_fields := (loadMaps qnode.groups).2 }
    | none => none
  | _, _, _, _ => none

/-! ### layer.py — the layer-tree side of `add_ext_layer`

The mutable state threaded through `add_empty_group` / `add_ext_layer`:
the `XYZLayer` object and the main layer-tree group (`qgroups["main"]`),
`none` until `add_empty_group` creates it.  The model covers a fresh
project whose layer-tree root holds no other group (so the
duplicate-name counting loop of `add_empty_group` counts zero). -/
structure LState where
  layer : XYZLayer
  main : Option QNode

/-- `XYZLayer.add_empty_group`: reuse the main group if present,
otherwise derive the group name, remember it in `_group_name`, insert
the group and save the provenance properties on it. -/
def add_empty_group (st : LState) : LState :=
  match st.main with
  | some _ => st
  | none =>
    let name := st.layer.make_group_name none
    let layer := { st.layer with group_name := name }
    let g : QNode := layer.save_meta_node
      { nodeName := name, props := [], groups := [] }
    { layer := layer, main := some g }

/-- Insert at position `i`, appending when `i` is beyond the end
(Qt's `insertGroup` clamps the index). -/
def qinsert (i : Nat) (g : QGroup) (l : List QGroup) : List QGroup :=
  l.take i ++ [g] ++ l.drop i

/-- Append a layer to the (unique) sub-group with the given name: the
cached `qgroups[geom].addLayer(vlayer)` of the source. -/
def groupAppendFirst : List QGroup → String → VLayer → List QGroup
  | [], _, _ => []
  | gr :: gs, gname, v =>
    if gr.name == gname then { gr with layers := gr.layers ++ [v] } :: gs
    else gr :: groupAppendFirst gs gname v

/-- The group placement of `add_ext_layer`: reuse the cached sub-group of
that geometry name, else `insertGroup(order, geom)` when the name has a
`GEOM_ORDER` rank, else `addGroup(geom)`; then append the layer to the
sub-group. -/
def addLayerToGroup (gs : List QGroup) (gname : String) (v : VLayer)
    (ord : Option Nat) : List QGroup :=
  if (gs.find? (fun gr => gr.name == gname)).isSome then
    groupAppendFirst gs gname v
  else
    match ord with
    | some i => qinsert i ⟨gname, [v]⟩ gs
    | none => gs ++ [⟨gname, [v]⟩]

/-- `XYZLayer.add_ext_layer(geom_str, idx)` restricted to the state it
changes: create the backing table and its ogr-backed `QgsVectorLayer`
(`_init_ext_layer`, whose wkb display string is the requested
`geom_str`), register it (`_add_layer`), ensure the main group exists,
and place the layer in its geometry sub-group.  Style import and map
registration touch no modelled state. -/
def add_ext_layer (st : LState) (geom_str : String) (idx : Nat) :
    Except String LState :=
  let vlayer : VLayer :=
    { geomStr := geom_str, layerName := st.layer.layer_name geom_str idx,
      fieldsOf := 0 }
  match st.layer.add_layer geom_str vlayer idx with
  | .error e => .error e
  | .ok layer1 =>
    let st1 := add_empty_group { st with layer := layer1 }
    match st1.main with
    | none => .error "no main group"
    | some g =>
      let geom := group_geom_name geom_str
      let ord := dlookup GEOM_ORDER geom
      let groups := addLayerToGroup g.groups geom vlayer ord
      .ok { st1 with main := some { g with groups := groups } }

/-- Drive `add_ext_layer` with the index every caller uses: the current
partition count of the geometry kind (`_add_layer` then always
succeeds). -/
def add_ext_layer_next (st : LState) (geom_str : String) : Except String LState :=
  add_ext_layer st geom_str
    ((dlookup st.layer.map_vlayer geom_str).getD []).length

/-- Run a sequence of partition creations from a state. -/
def runAdds (st : LState) : List String → Except String LState
  | [] => .ok st
  | g :: gs =>
    match add_ext_layer_next st g with
    | .error e => .error e
    | .ok st1 => runAdds st1 gs

/-! ### layer.py — `_init_ext_layer` write attempts -/

/-- `QgsVectorFileWriter.ActionOnExistingFile` values used by the
source. -/
inductive WriteMode where
  | CreateOrOverwriteLayer
  | CreateOrOverwriteFile
deriving DecidableEq, Repr

/-- The `QgsVectorFileWriter.WriterError` codes (QGIS library enum). -/
inductive WriterError where
  | NoError
  | ErrDriverNotFound
  | ErrCreateDataSource
  | ErrCreateLayer
  | ErrAttributeTypeUnsupported
  | ErrAttributeCreationFailed
  | ErrProjection
  | ErrFeatureWriteFailed
  | ErrInvalidLayer
deriving DecidableEq, Repr

/-- The write attempts `_init_ext_layer` makes, in order, given the
writer's outcome `w` for each mode: first
`CreateOrOverwriteLayer`; a second attempt with `CreateOrOverwriteFile`
exactly when the first returned `ErrCreateDataSource`. -/
def init_ext_layer_attempts (w : WriteMode → WriterError × String) :
    List WriteMode :=
  let err1 := w .CreateOrOverwriteLayer
  if err1.1 = .ErrCreateDataSource then
    [.CreateOrOverwriteLayer, .CreateOrOverwriteFile]
  else
    [.CreateOrOverwriteLayer]

/-- The error check of `_init_ext_layer`: after the optional retry,
`raise Exception("%s: %s" % err)` whenever the last attempt's code is
not `NoError` (the spec calls this failure `PartitionWriteFailed`). -/
def init_ext_layer_write (w : WriteMode → WriterError × String) :
    Except String Unit :=
  let err1 := w .CreateOrOverwriteLayer
  let err := if err1.1 = .ErrCreateDataSource then w .CreateOrOverwriteFile
    else err1
  if err.1 ≠ .NoError then .error (reprStr err.1 ++ ": " ++ err.2)
  else .ok ()

/-! ### layer.py — `_init_constraint` (the SchemaMigrator) -/

/-- Python `"COMMIT" in s`. -/
def hasCOMMIT (s : String) : Bool :=
  strContains s.data "COMMIT".data

/-- The table-creation statement rewrite of `_init_constraint`: replace
every occurrence of the table name by `tmp_<name>`, then re-join
`str.partition(")")` with `", <constraint>"` spliced in front of the
separator — i.e. in front of the first `)` of the statement. -/
def rewrite_create (sql_create layer_name sql_constraint : String) :
    String :=
  let s := pyReplace sql_create layer_name ("tmp_" ++ layer_name)
  let parts := pyPartition s ")"
  parts.1 ++ ", " ++ sql_constraint ++ parts.2.1 ++ parts.2.2

/-- One step of the migration's database traffic: a `cur.execute(s)` or
a `conn.commit()`. -/
inductive DbAction where
  | exec (s : String)
  | commit
deriving DecidableEq, Repr

/-- `XYZLayer._init_constraint` as the sequence of database actions it
performs after fetching the catalog rows for the table.  `rows` are the
`(type, sql)` rows of `sqlite_master` for `layer_name`; an empty result
raises `"No layer found in GPKG"`.  The first row's statement is
rewritten under the temporary name with the constraint spliced in; the
statement list is then executed in order, where any statement containing
the substring `"COMMIT"` becomes `conn.commit()`; a final
`conn.commit()` follows the loop. -/
def init_constraint_run (rows : List (String × String))
    (layer_name sql_constraint : String) : Except String (List DbAction) :=
  match rows with
  | [] => .error "No layer found in GPKG"
  | r0 :: rest =>
    let sql_create := rewrite_create r0.2 layer_name sql_constraint
    let lst_old_sql := rest.map (·.2)
    let tmp_name := "tmp_" ++ layer_name
    let lst_sql : List String :=
      ["PRAGMA foreign_keys = '0'",
       "BEGIN TRANSACTION",
       sql_create,
       "PRAGMA defer_foreign_keys = '1'",
       "DROP TABLE \"" ++ layer_name ++ "\"",
       "ALTER TABLE \"" ++ tmp_name ++ "\" RENAME TO \"" ++ layer_name ++ "\"",
       "PRAGMA defer_foreign_keys = '0'"]
      ++ lst_old_sql ++
      ["COMMIT",
       "PRAGMA foreign_keys = '1'"]
    .ok ((lst_sql.map (fun s =>
        if hasCOMMIT s then DbAction.commit else DbAction.exec s))
      ++ [DbAction.commit])

/-! ### network.py — `NetManager`

`make_conn_request`, `set_qt_property`, `make_payload` live in
`net_utils.py`, which is not part of the sampled source; the
RequestFactory contract of spec §4.4 fixes what they do with the
parameters the `NetManager` methods hand them. -/

/-- Modelled from the spec (§4.4): serialisation of one query-parameter
value — list/sequence values become comma-joined strings, scalars their
string form. -/
def serializeQVal : PyObj → String
  | .pstr s => s
  | .pint n => pyStrNat n
  | .plist l => pyJoin "," (l.map pyStrOf)
  | .pdict _ => "<dict>"

/-- A fully built request: the endpoint template, the template resolved
against the connection descriptor, the serialised query parameters, and
the body-serialisation mode selected by the `req_type` keyword. -/
structure ConnRequest where
  endpoint : String
  url : String
  query : List (String × String)
  req_type : Option String
deriving DecidableEq, Repr

/-- Modelled from the spec (§4.4): `make_conn_request(conn_info,
endpoint, **kw)` resolves the `{space_id}` placeholder, pulls the
`req_type` body-mode keyword out, and serialises the remaining keywords
verbatim as query parameters. -/
def make_conn_request (conn : SpaceConnectionInfo) (endpoint : String)
    (kw : List (String × PyObj)) : ConnRequest :=
  { endpoint := endpoint,
    url := pyReplace endpoint "{space_id}" conn.space_id,
    query := (kw.filter (fun p => p.1 ≠ "req_type")).map
      (fun p => (p.1, serializeQVal p.2)),
    req_type := match dlookup kw "req_type" with
      | some (.pstr m) => some m
      | _ => none }

/-- An issued reply handle: the HTTP verb, the built request, and the
`reply_tag` correlation property `set_qt_property` attaches. -/
structure Reply where
  method : String
  request : ConnRequest
  reply_tag : Option String
deriving DecidableEq, Repr

/-- A client-side timer installed on a reply:
`QTimer.singleShot(msec, reply.abort)` — one-shot, firing after `msec`
time units, unconditionally calling `abort` on that same reply. -/
structure ReplyTimer where
  msec : Nat
deriving DecidableEq, Repr

/-- What a `NetManager` call produces: the in-flight reply plus every
client-side timer installed on it. -/
structure CallResult where
  reply : Reply
  timers : List ReplyTimer
deriving DecidableEq, Repr

/-- `network.py`'s `TIMEOUT_COUNT`. -/
def TIMEOUT_COUNT : Nat := 1000

/-- `NetManager._send_request` (a GET via `self.network.get`). -/
def send_request (conn : SpaceConnectionInfo) (endpoint : String)
    (kw_request : List (String × PyObj)) (reply_tag : Option String) :
    Reply :=
  { method := "GET", request := make_conn_request conn endpoint kw_request,
    reply_tag := reply_tag }

/-- `NetManager._get_space_(conn_info, reply_tag)`. -/
def get_space_ (conn : SpaceConnectionInfo) (reply_tag : String) : Reply :=
  let tag := if reply_tag ≠ "space_meta" then "/" ++ reply_tag else ""
  send_request conn ("/spaces/{space_id}" ++ tag) [] (some reply_tag)

/-- `NetManager.get_statistics`: the space statistics GET plus the
one-shot `TIMEOUT_COUNT` abort timer. -/
def get_statistics (conn : SpaceConnectionInfo) : CallResult :=
  let reply := get_space_ conn "statistics"
  { reply := reply, timers := [{ msec := TIMEOUT_COUNT }] }

/-- `NetManager.get_count`: no client-side timer. -/
def get_count (conn : SpaceConnectionInfo) : CallResult :=
  { reply := get_space_ conn "count", timers := [] }

/-- `NetManager.get_meta`: no client-side timer. -/
def get_meta (conn : SpaceConnectionInfo) : CallResult :=
  { reply := get_space_ conn "space_meta", timers := [] }

/-- `NetManager._add_features(conn_info, added_feat, send_request, **kw)`
restricted to request building: `kw["addTags"] = kw["tags"]` when a
`tags` keyword is present, then `kw_request = dict(req_type="geo",
**kw)`. -/
def add_features_req (conn : SpaceConnectionInfo) (method : String)
    (kw : List (String × PyObj)) : Reply :=
  let kw1 := match dlookup kw "tags" with
    | some v => dset kw "addTags" v
    | none => kw
  let kw_request := ("req_type", PyObj.pstr "geo") :: kw1
  { method := method,
    request := make_conn_request conn "/spaces/{space_id}/features" kw_request,
    reply_tag := some "add_feat" }

/-- `NetManager.add_features` (`self.network.post`). -/
def add_features (conn : SpaceConnectionInfo)
    (kw : List (String × PyObj)) : Reply :=
  add_features_req conn "POST" kw

/-- `NetManager.replace_features` (`self.network.put`). -/
def replace_features (conn : SpaceConnectionInfo)
    (kw : List (String × PyObj)) : Reply :=
  add_features_req conn "PUT" kw

/-- `NetManager.del_features(conn_info, removed_feat, **kw)`:
`{"id": ",".join(str(i) for i in removed_feat)}` merged over `kw`, sent
with `sendCustomRequest(request, b"DELETE")`. -/
def del_features (conn : SpaceConnectionInfo) (removed_feat : List PyObj)
    (kw : List (String × PyObj)) : Reply :=
  let joined := pyJoin "," (removed_feat.map pyStrOf)
  let kw1 := dset kw "id" (.pstr joined)
  { method := "DELETE",
    request := make_conn_request conn "/spaces/{space_id}/features" kw1,
    reply_tag := some "del_feat" }

/-! ### Observations used by the theorems -/

/-- The partition count of a geometry kind: the length of its list in
`map_vlayer`, zero when the kind is not registered. -/
def XYZLayer.partitionCount (l : XYZLayer) (g : String) : Nat :=
  ((dlookup l.map_vlayer g).getD []).length

/-- The space-id component of the store identity triplet:
`self.meta.get("id", "")` as the string `str.format` renders. -/
def XYZLayer.space_id_str (l : XYZLayer) : String :=
  pyStrOf (l.meta.dget "id" (.pstr ""))

/-- `none` for the empty list, `some l` otherwise: what a
`setdefault`-built map stores under a key after appending the given
elements. -/
def optOf : List β → Option (List β)
  | [] => none
  | l => some l

/-- Combining an existing optional entry with freshly appended
elements. -/
def combOpt (o : Option (List β)) (l : List β) : Option (List β) :=
  match o, l with
  | none, [] => none
  | none, l => some l
  | some a, l => some (a ++ l)

/-- All layers of a sub-group list, in tree traversal order. -/
def flatLayers : List QGroup → List VLayer
  | [] => []
  | g :: gs => g.layers ++ flatLayers gs

/-- The layers of one geometry kind, in tree traversal order. -/
def perKind (k : String) (gs : List QGroup) : List VLayer :=
  (flatLayers gs).filter (fun v => v.geomStr == k)

/-- The custom-property store `_save_meta_node` leaves on a fresh node. -/
def savedProps (c : SpaceConnectionInfo) (m : PyObj) (t : String)
    (u : Nat) : List (String × QVariant) :=
  [("xyz-hub", .vjson (json_dumps m)),
   ("xyz-hub-conn", .vjson (json_dumps c.to_dict)),
   ("xyz-hub-tags", .vstr t),
   ("xyz-hub-id", .vnat u)]

/-- Invariant tying an `XYZLayer` built by a run of partition creations
to the layer tree it populated: the identity fields are the initial
ones; before the first creation there is no main group and no
partitions; afterwards the registry agrees per kind with the tree, every
layer sits in the sub-group named after its geometry, sub-group names
are unique, and the provenance properties sit on the main group. -/
structure MainInv (c : SpaceConnectionInfo) (m : PyObj) (t : String)
    (u : Nat) (st : LState) : Prop where
  conn_eq : st.layer.conn_info = c
  meta_eq : st.layer.meta = m
  tags_eq : st.layer.tags = t
  unique_eq : st.layer.unique = u
  main_none : st.main = none → st.layer.map_vlayer = []
  reg_eq : ∀ g, st.main = some g →
    ∀ k, dlookup st.layer.map_vlayer k = optOf (perKind k g.groups)
  grp_name : ∀ g, st.main = some g →
    ∀ gr ∈ g.groups, ∀ v ∈ gr.layers, gr.name = group_geom_name v.geomStr
  grp_nodup : ∀ g, st.main = some g → (g.groups.map QGroup.name).Nodup
  props_eq : ∀ g, st.main = some g → g.props = savedProps c m t u

/-! ### The spec-side rewrite for the SchemaMigrator (claim C7) -/

/-- Scan for the closing parenthesis matching the first opening one:
`parenMatchAux l i none` returns the index of the parenthesis closing
the first `(` of `l`, counting from position `i`. -/
def parenMatchAux : List Char → Nat → Option Nat → Option Nat
  | [], _, _ => none
  | c :: rest, i, none =>
    if c = '(' then parenMatchAux rest (i + 1) (some 0)
    else parenMatchAux rest (i + 1) none
  | c :: rest, i, some d =>
    if c = ')' then
      (if d = 0 then some i else parenMatchAux rest (i + 1) (some (d - 1)))
    else if c = '(' then parenMatchAux rest (i + 1) (some (d + 1))
    else parenMatchAux rest (i + 1) (some d)

/-- The statement rewrite as the spec words it (§4.5 step 2, claim C7):
rename the table everywhere, then inject `", <constraint>"` immediately
before the closing clause of the column list — the parenthesis matching
the `(` that opens the column list. -/
def rewrite_create_spec (sql_create layer_name sql_constraint : String) :
    String :=
  let s := pyReplace sql_create layer_name ("tmp_" ++ layer_name)
  match parenMatchAux s.data 0 none with
  | some i => ⟨s.data.take i ++ (", " ++ sql_constraint).data ++ s.data.drop i⟩
  | none => s

/-! ### Concrete values used by the witnesses -/

/-- A concrete connection descriptor. -/
def connEx : SpaceConnectionInfo :=
  { server := "https://xyz.api.here.com/hub", space_id := "sp1",
    token := "tok" }

/-- A concrete space-metadata record. -/
def metaEx : PyObj :=
  .pdict [("id", .pstr "sp1"), ("title", .pstr "MySpace")]

/-- A concrete freshly constructed store. -/
def layerEx : XYZLayer :=
  XYZLayer.init connEx metaEx "" none "XYZ Hub Layer" "gpkg" 5

/-- The same store identity with a different uniqueness token. -/
def layerEx7 : XYZLayer :=
  XYZLayer.init connEx metaEx "" (some 7) "XYZ Hub Layer" "gpkg" 5

/-- A concrete vector layer. -/
def vlayerEx : VLayer :=
  { geomStr := "Point", layerName := "MySpace-sp1-Point-0", fieldsOf := 0 }

/-- A concrete writer-outcome oracle: the first attempt fails with
`ErrCreateDataSource`, the retry succeeds. -/
def writerEx : WriteMode → WriterError × String
  | .CreateOrOverwriteLayer => (.ErrCreateDataSource, "no such file")
  | .CreateOrOverwriteFile => (.NoError, "")

/-- The vector layer `add_ext_layer` creates when driven with the next
free index of the geometry kind. -/
def newVLayer (st : LState) (gstr : String) : VLayer :=
  { geomStr := gstr,
    layerName := st.layer.layer_name gstr
      ((dlookup st.layer.map_vlayer gstr).getD []).length,
    fieldsOf := 0 }

/-- The state after registering the new layer in `map_vlayer` and
ensuring the main group exists. -/
def stepMid (st : LState) (gstr : String) : LState :=
  add_empty_group { st with layer := { st.layer with
    map_vlayer := dappendAt st.layer.map_vlayer gstr (newVLayer st gstr) } }

/-! ### Association-list lemmas -/

theorem dlookup_nil (k : String) : dlookup ([] : List (String × α)) k = none :=
  rfl

theorem dlookup_cons (k' : String) (w : α) (m : List (String × α))
    (k : String) :
    dlookup ((k', w) :: m) k = if k' == k then some w else dlookup m k := by
  cases h : k' == k <;> simp [dlookup, List.find?, h]

theorem dhas_eq (m : List (String × α)) (k : String) :
    dhas m k = (dlookup m k).isSome := by
  simp [dhas, dlookup]

theorem dlookup_dappendAt_self (m : List (String × List β)) (k : String)
    (v : β) :
    dlookup (dappendAt m k v) k = some ((dlookup m k).getD [] ++ [v]) := by
  induction m with
  | nil => simp [dappendAt, dlookup_cons, dlookup_nil]
  | cons p m ih =>
    obtain ⟨k', w⟩ := p
    cases h : k' == k with
    | true => simp [dappendAt, h, dlookup_cons]
    | false => simp [dappendAt, h, dlookup_cons, ih]

theorem dlookup_dappendAt_ne (m : List (String × List β)) (k k' : String)
    (v : β) (h : k' ≠ k) :
    dlookup (dappendAt m k v) k' = dlookup m k' := by
  have hbk : (k == k') = false := by
    simpa using fun e => h e.symm
  induction m with
  | nil => simp [dappendAt, dlookup_cons, dlookup_nil, hbk]
  | cons p m ih =>
    obtain ⟨k'', w⟩ := p
    cases h2 : k'' == k with
    | true =>
      have : (k'' == k') = false := by
        have e : k'' = k := by simpa using h2
        subst e
        exact hbk
      simp [dappendAt, h2, dlookup_cons, this]
    | false => simp [dappendAt, h2, dlookup_cons, ih]

theorem dlookup_dset_self (m : List (String × α)) (k : String) (v : α) :
    dlookup (dset m k v) k = some v := by
  induction m with
  | nil => simp [dset, dlookup_cons]
  | cons p m ih =>
    obtain ⟨k', w⟩ := p
    cases h : k' == k with
    | true => simp [dset, h, dlookup_cons]
    | false => simp [dset, h, dlookup_cons, ih]

theorem dlookup_dset_ne (m : List (String × α)) (k k' : String) (v : α)
    (h : k' ≠ k) :
    dlookup (dset m k v) k' = dlookup m k' := by
  have hbk : (k == k') = false := by
    simpa using fun e => h e.symm
  induction m with
  | nil => simp [dset, dlookup_cons, dlookup_nil, hbk]
  | cons p m ih =>
    obtain ⟨k'', w⟩ := p
    cases h2 : k'' == k with
    | true =>
      have e : k'' = k := by simpa using h2
      subst e
      simp [dset, dlookup_cons, hbk]
    | false => simp [dset, h2, dlookup_cons, ih]

/-! ### Claim C1 — append-only partition registration -/

/-- C1: `XYZLayer._add_layer(geom_str, vlayer, idx)` succeeds exactly
when `idx` equals the current partition count of the geometry kind; on
success that count grows by exactly one, the new partition sits at
position `idx`, and other kinds are untouched; any other `idx` fails
(the failure the spec names `PartitionIndexGap`). -/
theorem c1_add_layer_append_only (l : XYZLayer) (g : String) (v : VLayer)
    (i : Nat) :
    ((∃ l', l.add_layer g v i = .ok l') ↔ i = l.partitionCount g) ∧
    (i = l.partitionCount g →
      ∃ l', l.add_layer g v i = .ok l' ∧
        l'.partitionCount g = l.partitionCount g + 1 ∧
        dlookup l'.map_vlayer g =
          some ((dlookup l.map_vlayer g).getD [] ++ [v]) ∧
        ((dlookup l'.map_vlayer g).getD [])[i]? = some v ∧
        ∀ g', g' ≠ g → dlookup l'.map_vlayer g' = dlookup l.map_vlayer g') := by
  constructor
  · constructor
    · rintro ⟨l', h⟩
      by_contra hne
      simp [XYZLayer.add_layer, XYZLayer.partitionCount] at h hne
      rw [if_neg hne] at h
      exact Except.noConfusion h
    · intro h
      exact ⟨_, by simp [XYZLayer.add_layer, XYZLayer.partitionCount] at h ⊢; rw [if_pos h]⟩
  · intro h
    refine ⟨_, by simp [XYZLayer.add_layer, XYZLayer.partitionCount] at h ⊢; rw [if_pos h], ?_, ?_, ?_, ?_⟩
    · simp [XYZLayer.partitionCount, dlookup_dappendAt_self]
    · simp [dlookup_dappendAt_self]
    · simp [dlookup_dappendAt_self, XYZLayer.partitionCount] at h ⊢
      subst h
      simp
    · intro g' hg'
      simp [dlookup_dappendAt_ne _ _ _ _ hg']

/-- C1 witness: registering the first Point partition at index 0 on a
fresh store succeeds and appends it. -/
theorem c1_witness :
    ∃ l', layerEx.add_layer "Point" vlayerEx 0 = .ok l' ∧
      l'.partitionCount "Point" = layerEx.partitionCount "Point" + 1 ∧
      dlookup l'.map_vlayer "Point" =
        some ((dlookup layerEx.map_vlayer "Point").getD [] ++ [vlayerEx]) ∧
      ((dlookup l'.map_vlayer "Point").getD [])[0]? = some vlayerEx ∧
      ∀ g', g' ≠ "Point" →
        dlookup l'.map_vlayer g' = dlookup layerEx.map_vlayer g' :=
  (c1_add_layer_append_only layerEx "Point" vlayerEx 0).2 rfl

/-! ### Claim C10 — `has_layer` guards `get_layer` -/

theorem isSome_idx_iff (lst : List α) (i : Nat) :
    lst[i]?.isSome = true ↔ i < lst.length := by
  constructor
  · intro h
    cases hg : lst[i]? with
    | none => rw [hg] at h; simp at h
    | some a => exact (List.getElem?_eq_some.mp hg).1
  · intro h
    rw [List.getElem?_eq_getElem h]
    rfl

/-- C10: `has_layer(k, i)` is true exactly when `k` is a registered
geometry kind and `i` is below the kind's partition count, and exactly
when `get_layer(k, i)` returns a partition instead of failing (so a
false `has_layer` means `get_layer` raises). -/
theorem c10_has_layer_guards_get_layer (l : XYZLayer) (g : String)
    (i : Nat) :
    (l.has_layer g i = true ↔
      (dlookup l.map_vlayer g).isSome ∧ i < l.partitionCount g) ∧
    (l.has_layer g i = true ↔ (l.get_layer g i).isSome) := by
  constructor
  · simp [XYZLayer.has_layer, dhas_eq, XYZLayer.partitionCount]
  · cases h : dlookup l.map_vlayer g with
    | none => simp [XYZLayer.has_layer, XYZLayer.get_layer, dhas_eq, h]
    | some lst =>
      simp only [XYZLayer.has_layer, XYZLayer.get_layer, dhas_eq, h,
        XYZLayer.partitionCount, Option.isSome_some, Bool.true_and,
        Option.getD_some, Option.some_bind, decide_eq_true_eq]
      exact (isSome_idx_iff lst i).symm

/-! ### Claim C9 — only `get_statistics` installs a timeout -/

/-- C9: of the three space-metadata fetches, exactly `get_statistics`
installs a client-side timer on its reply — a single one-shot timer of
1000 time units whose action is `reply.abort`; `get_count` and
`get_meta` install none. -/
theorem c9_only_statistics_timeout (conn : SpaceConnectionInfo) :
    (get_statistics conn).timers = [{ msec := 1000 }] ∧
    (get_count conn).timers = [] ∧
    (get_meta conn).timers = [] :=
  ⟨rfl, rfl, rfl⟩

/-! ### Query-serialisation lemma shared by C3 and C8 -/

theorem dlookup_query (kw : List (String × PyObj)) (k : String)
    (h : k ≠ "req_type") :
    dlookup ((kw.filter (fun p => p.1 ≠ "req_type")).map
        (fun p => (p.1, serializeQVal p.2))) k
      = (dlookup kw k).map serializeQVal := by
  induction kw with
  | nil => simp [dlookup_nil]
  | cons p kw ih =>
    obtain ⟨k', v⟩ := p
    by_cases hr : k' = "req_type"
    · subst hr
      have hb : (("req_type" : String) == k) = false := by
        simpa using fun e => h e.symm
      have hf : ((("req_type", v) :: kw).filter (fun p => p.1 ≠ "req_type"))
          = kw.filter (fun p => p.1 ≠ "req_type") :=
        List.filter_cons_of_neg (by simp)
      rw [hf, ih, dlookup_cons, hb]
      simp
    · have hf : (((k', v) :: kw).filter (fun p => p.1 ≠ "req_type"))
          = (k', v) :: kw.filter (fun p => p.1 ≠ "req_type") :=
        List.filter_cons_of_pos (by simpa using hr)
      cases hk : k' == k with
      | true =>
        rw [hf, List.map_cons, dlookup_cons, dlookup_cons, hk]
        simp
      | false =>
        rw [hf, List.map_cons, dlookup_cons, dlookup_cons, hk]
        simp only [Bool.false_eq_true, if_false]
        exact ih

/-! ### Claim C8 — feature deletion request -/

/-- C8: for a non-empty id list, `del_features` sends an HTTP DELETE
against `/spaces/{space_id}/features` whose query parameters map `"id"`
to the comma-joined id string. -/
theorem c8_del_features_request (conn : SpaceConnectionInfo)
    (removed_feat : List PyObj) (kw : List (String × PyObj))
    (h : removed_feat ≠ []) :
    (del_features conn removed_feat kw).method = "DELETE" ∧
    (del_features conn removed_feat kw).request.endpoint =
      "/spaces/{space_id}/features" ∧
    dlookup (del_features conn removed_feat kw).request.query "id" =
      some (pyJoin "," (removed_feat.map pyStrOf)) := by
  refine ⟨rfl, rfl, ?_⟩
  show dlookup (make_conn_request conn "/spaces/{space_id}/features"
    (dset kw "id" (.pstr (pyJoin "," (removed_feat.map pyStrOf))))).query
      "id" = _
  rw [show (make_conn_request conn "/spaces/{space_id}/features"
      (dset kw "id" (.pstr (pyJoin "," (removed_feat.map pyStrOf))))).query
    = ((dset kw "id" (.pstr (pyJoin "," (removed_feat.map pyStrOf)))).filter
        (fun p => p.1 ≠ "req_type")).map
      (fun p => (p.1, serializeQVal p.2)) from rfl]
  rw [dlookup_query _ _ (by decide), dlookup_dset_self]
  rfl

/-- C8 witness: `deleteFeatures(["f1","f2"])` yields a DELETE on
`/spaces/{space_id}/features` with query parameter `id=f1,f2`. -/
theorem c8_witness :
    (del_features connEx [.pstr "f1", .pstr "f2"] []).method = "DELETE" ∧
    (del_features connEx [.pstr "f1", .pstr "f2"] []).request.endpoint =
      "/spaces/{space_id}/features" ∧
    dlookup (del_features connEx [.pstr "f1", .pstr "f2"] []).request.query
      "id" = some "f1,f2" :=
  c8_del_features_request connEx [.pstr "f1", .pstr "f2"] [] (by simp)

/-! ### Claim C3 — `tags` keyword on feature upload -/

/-- C3 counterexample: calling `_add_features` with `extra` containing
`tags="a"` serialises a query that still contains the `tags` key (the
source copies the value to `addTags` without deleting `tags`), so the
claim that the serialized parameters "no longer contain a tags key" is
false at this input. -/
theorem c3_counterexample :
    dlookup (add_features connEx [("tags", .pstr "a")]).request.query
      "tags" = some "a" ∧
    dlookup (add_features connEx [("tags", .pstr "a")]).request.query
      "addTags" = some "a" :=
  ⟨rfl, rfl⟩

/-- C3 amended: when the extra keyword mapping contains `tags`, an
`addTags` key carrying the original tags value is added before
serialization; the `tags` key is retained, so the serialized query
parameters carry both `tags` and `addTags` with that value.  This holds
for both verbs routed through `_add_features` (`add_features`/POST and
`replace_features`/PUT). -/
theorem c3_amended_tags_copied (conn : SpaceConnectionInfo)
    (method : String) (kw : List (String × PyObj)) (v : PyObj)
    (h : dlookup kw "tags" = some v) :
    dlookup (add_features_req conn method kw).request.query "addTags" =
      some (serializeQVal v) ∧
    dlookup (add_features_req conn method kw).request.query "tags" =
      some (serializeQVal v) := by
  have hq : (add_features_req conn method kw).request.query
      = ((("req_type", PyObj.pstr "geo") :: dset kw "addTags" v).filter
          (fun p => p.1 ≠ "req_type")).map
        (fun p => (p.1, serializeQVal p.2)) := by
    simp [add_features_req, h, make_conn_request]
  constructor
  · rw [hq, dlookup_query _ _ (by decide), dlookup_cons]
    simp [dlookup_dset_self]
  · rw [hq, dlookup_query _ _ (by decide), dlookup_cons]
    simp [dlookup_dset_ne _ _ _ _ (by decide : "tags" ≠ "addTags"), h]

/-- C3 amended witness: with `tags="a"` both serialized keys are
present and carry `"a"`. -/
theorem c3_amended_witness :
    dlookup (add_features_req connEx "POST" [("tags", .pstr "a")]).request.query "addTags" = some "a" ∧
    dlookup (add_features_req connEx "POST" [("tags", .pstr "a")]).request.query "tags" = some "a" :=
  c3_amended_tags_copied connEx "POST" [("tags", .pstr "a")]
    (.pstr "a") rfl

/-! ### Claim C5 — partition-write retry policy -/

/-- C5: `_init_ext_layer` writes first in add-layer-to-existing-file
mode; it retries — exactly once, in create-new-file mode — if and only
if that first attempt failed with the data-source-creation error; the
write as a whole succeeds exactly when the first attempt succeeds or the
retry after a data-source-creation failure succeeds, every other outcome
being raised as the fatal error the spec names `PartitionWriteFailed`. -/
theorem c5_write_retry (w : WriteMode → WriterError × String) :
    ((init_ext_layer_attempts w =
        [.CreateOrOverwriteLayer, .CreateOrOverwriteFile]) ↔
      (w .CreateOrOverwriteLayer).1 = .ErrCreateDataSource) ∧
    ((w .CreateOrOverwriteLayer).1 ≠ .ErrCreateDataSource →
      init_ext_layer_attempts w = [.CreateOrOverwriteLayer]) ∧
    ((∃ u, init_ext_layer_write w = .ok u) ↔
      ((w .CreateOrOverwriteLayer).1 = .NoError ∨
       ((w .CreateOrOverwriteLayer).1 = .ErrCreateDataSource ∧
        (w .CreateOrOverwriteFile).1 = .NoError))) ∧
    ((∃ u, init_ext_layer_write w = .ok u) ∨
      (∃ msg, init_ext_layer_write w = .error msg)) := by
  refine ⟨?_, ?_, ?_, ?_⟩
  · constructor
    · intro ha
      by_contra hne
      simp [init_ext_layer_attempts, hne] at ha
    · intro he
      simp [init_ext_layer_attempts, he]
  · intro he
    simp [init_ext_layer_attempts, he]
  · by_cases h1 : (w .CreateOrOverwriteLayer).1 = .ErrCreateDataSource
    · by_cases h2 : (w .CreateOrOverwriteFile).1 = .NoError
      · simp [init_ext_layer_write, h1, h2]
      · simp [init_ext_layer_write, h1, h2]
    · by_cases h0 : (w .CreateOrOverwriteLayer).1 = .NoError
      · simp [init_ext_layer_write, h1, h0]
      · simp [init_ext_layer_write, h1, h0]
  · by_cases hfin : (if (w .CreateOrOverwriteLayer).1 = .ErrCreateDataSource
        then w .CreateOrOverwriteFile else w .CreateOrOverwriteLayer).1
        = .NoError
    · exact Or.inl ⟨(), by simp [init_ext_layer_write, hfin]⟩
    · exact Or.inr ⟨reprStr (if (w .CreateOrOverwriteLayer).1 =
          .ErrCreateDataSource then w .CreateOrOverwriteFile
          else w .CreateOrOverwriteLayer).1 ++ ": " ++
        (if (w .CreateOrOverwriteLayer).1 = .ErrCreateDataSource then
          w .CreateOrOverwriteFile else w .CreateOrOverwriteLayer).2,
        by simp [init_ext_layer_write, hfin]⟩

/-- C5 witness: a first attempt failing with `ErrCreateDataSource`
triggers exactly one retry in create-new-file mode, which succeeds. -/
theorem c5_witness :
    init_ext_layer_attempts writerEx =
      [.CreateOrOverwriteLayer, .CreateOrOverwriteFile] ∧
    (∃ u, init_ext_layer_write writerEx = .ok u) ∧
    ((writerEx .CreateOrOverwriteLayer).1 ≠ .NoError →
      init_ext_layer_attempts writerEx = init_ext_layer_attempts writerEx) :=
  ⟨(c5_write_retry writerEx).1.mpr rfl,
   (c5_write_retry writerEx).2.2.1.mpr (Or.inr ⟨rfl, rfl⟩),
   fun _ => rfl⟩

/-! ### Claim C2 — migration executes in the documented order -/

/-- C2: provided no involved statement accidentally contains the
substring `"COMMIT"` (the execution loop turns such a statement into a
`conn.commit()` instead of executing it), `_init_constraint` performs
exactly: disable foreign keys; begin transaction; create the renamed
constrained table; defer foreign-key checks; drop the original table;
rename the temporary table back; re-enable deferred checks; re-apply
every other captured catalog statement verbatim; commit; re-enable
foreign keys — the drop/create/rename/re-apply steps all between the
`BEGIN TRANSACTION` and the commit (the loop's `"COMMIT"` element is
performed as `conn.commit()`, and a final redundant `conn.commit()`
follows the loop). -/
theorem c2_migration_statement_order (r0 : String × String)
    (rest : List (String × String)) (layer_name c : String)
    (h1 : hasCOMMIT (rewrite_create r0.2 layer_name c) = false)
    (h2 : hasCOMMIT ("DROP TABLE \"" ++ layer_name ++ "\"") = false)
    (h3 : hasCOMMIT ("ALTER TABLE \"" ++ ("tmp_" ++ layer_name) ++
      "\" RENAME TO \"" ++ layer_name ++ "\"") = false)
    (h4 : ∀ p ∈ rest, hasCOMMIT p.2 = false) :
    init_constraint_run (r0 :: rest) layer_name c = .ok (
      [DbAction.exec "PRAGMA foreign_keys = '0'",
       .exec "BEGIN TRANSACTION",
       .exec (rewrite_create r0.2 layer_name c),
       .exec "PRAGMA defer_foreign_keys = '1'",
       .exec ("DROP TABLE \"" ++ layer_name ++ "\""),
       .exec ("ALTER TABLE \"" ++ ("tmp_" ++ layer_name) ++
         "\" RENAME TO \"" ++ layer_name ++ "\""),
       .exec "PRAGMA defer_foreign_keys = '0'"]
      ++ rest.map (fun p => DbAction.exec p.2)
      ++ [.commit, .exec "PRAGMA foreign_keys = '1'", .commit]) := by
  have p1 : hasCOMMIT "PRAGMA foreign_keys = '0'" = false := by decide
  have p2 : hasCOMMIT "BEGIN TRANSACTION" = false := by decide
  have p3 : hasCOMMIT "PRAGMA defer_foreign_keys = '1'" = false := by decide
  have p4 : hasCOMMIT "PRAGMA defer_foreign_keys = '0'" = false := by decide
  have p5 : hasCOMMIT "COMMIT" = true := by decide
  have p6 : hasCOMMIT "PRAGMA foreign_keys = '1'" = false := by decide
  have hold : (rest.map (fun p => p.2)).map
      (fun s => if hasCOMMIT s then DbAction.commit else DbAction.exec s)
      = rest.map (fun p => DbAction.exec p.2) := by
    rw [List.map_map]
    apply List.map_congr_left
    intro p hp
    simp [h4 p hp]
  simp only [init_constraint_run, List.map_append, List.map_cons,
    List.map_nil, hold]
  simp [p1, p2, p3, p4, p5, p6, h1, h2, h3]

/-- C2 witness: a concrete two-row catalog (the table plus one index)
yields exactly the documented action sequence. -/
theorem c2_witness :
    init_constraint_run
      [("table", "CREATE TABLE \"P_0\" (fid INTEGER, xyz_id TEXT)"),
       ("index", "CREATE INDEX i ON \"P_0\" (xyz_id)")]
      "P_0" "\"xyz_id\" TEXT UNIQUE ON CONFLICT REPLACE" = .ok (
      [DbAction.exec "PRAGMA foreign_keys = '0'",
       .exec "BEGIN TRANSACTION",
       .exec (rewrite_create "CREATE TABLE \"P_0\" (fid INTEGER, xyz_id TEXT)"
         "P_0" "\"xyz_id\" TEXT UNIQUE ON CONFLICT REPLACE"),
       .exec "PRAGMA defer_foreign_keys = '1'",
       .exec ("DROP TABLE \"" ++ "P_0" ++ "\""),
       .exec ("ALTER TABLE \"" ++ ("tmp_" ++ "P_0") ++
         "\" RENAME TO \"" ++ "P_0" ++ "\""),
       .exec "PRAGMA defer_foreign_keys = '0'"]
      ++ [("index", "CREATE INDEX i ON \"P_0\" (xyz_id)")].map
        (fun p => DbAction.exec p.2)
      ++ [.commit, .exec "PRAGMA foreign_keys = '1'", .commit]) :=
  c2_migration_statement_order
    ("table", "CREATE TABLE \"P_0\" (fid INTEGER, xyz_id TEXT)")
    [("index", "CREATE INDEX i ON \"P_0\" (xyz_id)")]
    "P_0" "\"xyz_id\" TEXT UNIQUE ON CONFLICT REPLACE"
    (by decide) (by decide) (by decide) (by decide)

/-! ### Claim C7 — constraint injection point -/

theorem partList_first_rparen (b : List Char) :
    ∀ a : List Char, ')' ∉ a →
      partList [')'] (a ++ ')' :: b) = some (a, b) := by
  intro a
  induction a with
  | nil =>
    intro _
    simp [partList, List.isPrefixOf]
  | cons c a' ih =>
    intro ha
    have hc : c ≠ ')' := fun e => ha (by simp [e])
    have hm : a' ++ ')' :: b ≠ [] := by simp
    have hpre : ¬ ([')'].isPrefixOf (c :: (a' ++ ')' :: b)) = true) := by
      simp [List.isPrefixOf]
      exact fun e => absurd e.symm hc
    show partList [')'] ((c :: a') ++ ')' :: b) = some (c :: a', b)
    simp only [List.cons_append, partList, List.append_eq]
    rw [if_neg hpre, ih (fun hmem => ha (List.mem_cons_of_mem _ hmem))]
    rfl

/-- C7 counterexample: for the captured creation statement
`CREATE TABLE "P_0" ("f" TEXT(5), "xyz_id" TEXT)` the source splices the
constraint before the first `)` of the statement — inside the `TEXT(5)`
type of a column — not before the closing clause of the column list as
the claim states, so the rewritten statement differs from the
spec-described one. -/
theorem c7_counterexample :
    rewrite_create "CREATE TABLE \"P_0\" (\"f\" TEXT(5), \"xyz_id\" TEXT)"
        "P_0" "\"xyz_id\" TEXT UNIQUE"
      = "CREATE TABLE \"tmp_P_0\" (\"f\" TEXT(5, \"xyz_id\" TEXT UNIQUE), \"xyz_id\" TEXT)"
    ∧
    rewrite_create "CREATE TABLE \"P_0\" (\"f\" TEXT(5), \"xyz_id\" TEXT)"
        "P_0" "\"xyz_id\" TEXT UNIQUE"
      ≠ rewrite_create_spec
          "CREATE TABLE \"P_0\" (\"f\" TEXT(5), \"xyz_id\" TEXT)"
          "P_0" "\"xyz_id\" TEXT UNIQUE" := by
  constructor
  · rfl
  · decide

/-- C7 amended: the executed statement equals the original with every
occurrence of the table name replaced by the temporary name and with
`", <constraint>"` inserted immediately before the *first* closing
parenthesis of the renamed statement (which is the closing clause of the
column list only when no earlier `)` occurs, e.g. in a column type). -/
theorem c7_amended_inject_before_first_rparen
    (sql_create layer_name c : String) (a b : List Char)
    (h : (pyReplace sql_create layer_name ("tmp_" ++ layer_name)).data
      = a ++ ')' :: b)
    (ha : ')' ∉ a) :
    (rewrite_create sql_create layer_name c).data =
      a ++ (", " ++ c).data ++ ')' :: b := by
  have hsep : (")" : String).data = [')'] := rfl
  have hp : pyPartition (pyReplace sql_create layer_name
      ("tmp_" ++ layer_name)) ")" = (⟨a⟩, ")", ⟨b⟩) := by
    rw [pyPartition, hsep, h, partList_first_rparen b a ha]
  rw [rewrite_create, hp]
  show (String.mk a ++ ", " ++ c ++ ")" ++ String.mk b).data = _
  simp [String.data_append, hsep]

/-- C7 amended witness: for
`CREATE TABLE "P_0" (fid INTEGER, xyz_id TEXT)` (whose first `)` closes
the column list) the constraint lands right before that parenthesis. -/
theorem c7_amended_witness :
    (rewrite_create "CREATE TABLE \"P_0\" (fid INTEGER, xyz_id TEXT)"
        "P_0" "\"xyz_id\" TEXT UNIQUE ON CONFLICT REPLACE").data =
      ("CREATE TABLE \"tmp_P_0\" (fid INTEGER, xyz_id TEXT").data ++
      (", " ++ "\"xyz_id\" TEXT UNIQUE ON CONFLICT REPLACE").data ++
      ')' :: [] :=
  c7_amended_inject_before_first_rparen
    "CREATE TABLE \"P_0\" (fid INTEGER, xyz_id TEXT)" "P_0"
    "\"xyz_id\" TEXT UNIQUE ON CONFLICT REPLACE"
    ("CREATE TABLE \"tmp_P_0\" (fid INTEGER, xyz_id TEXT").data []
    (by decide) (by decide)

/-! ### Claim C6 — backing file name determined by the identity triplet -/

theorem natDigitsAux_eq_digits (fuel : Nat) :
    ∀ n : Nat, n ≤ fuel → natDigitsAux fuel n = Nat.digits 10 n := by
  induction fuel with
  | zero =>
    intro n hn
    have : n = 0 := Nat.le_zero.mp hn
    subst this
    simp [natDigitsAux]
  | succ f ih =>
    intro n hn
    cases n with
    | zero => simp [natDigitsAux]
    | succ k =>
      rw [show natDigitsAux (f + 1) (k + 1)
          = ((k + 1) % 10) :: natDigitsAux f ((k + 1) / 10) from rfl]
      rw [Nat.digits_def' (by norm_num : (1 : ℕ) < 10) (Nat.succ_pos k)]
      congr 1
      apply ih
      have hlt : (k + 1) / 10 < k + 1 :=
        Nat.div_lt_self (Nat.succ_pos k) (by norm_num)
      omega

theorem digitChar_inj10 : ∀ d1 < 10, ∀ d2 < 10,
    Nat.digitChar d1 = Nat.digitChar d2 → d1 = d2 := by decide

theorem map_digitChar_inj : ∀ (l1 l2 : List Nat),
    (∀ d ∈ l1, d < 10) → (∀ d ∈ l2, d < 10) →
    l1.map Nat.digitChar = l2.map Nat.digitChar → l1 = l2 := by
  intro l1
  induction l1 with
  | nil =>
    intro l2 _ _ h
    cases l2 with
    | nil => rfl
    | cons d l2 => exact absurd h (by simp)
  | cons d1 t1 ih =>
    intro l2 h1 h2 h
    cases l2 with
    | nil => exact absurd h (by simp)
    | cons d2 t2 =>
      simp only [List.map_cons, List.cons.injEq] at h
      have hd : d1 = d2 :=
        digitChar_inj10 d1 (h1 d1 (by simp)) d2 (h2 d2 (by simp)) h.1
      have ht : t1 = t2 :=
        ih t2 (fun d hd => h1 d (by simp [hd]))
          (fun d hd => h2 d (by simp [hd])) h.2
      rw [hd, ht]

theorem pyStrNat_injective : ∀ m n : Nat, pyStrNat m = pyStrNat n → m = n := by
  have key : ∀ n : Nat, n ≠ 0 →
      pyStrNat n = ⟨(Nat.digits 10 n).reverse.map Nat.digitChar⟩ := by
    intro n hn
    rw [pyStrNat, if_neg hn, natDigitsAux_eq_digits n n (le_refl n)]
  have zeroCase : ∀ n : Nat, n ≠ 0 → pyStrNat n ≠ "0" := by
    intro n hn heq
    rw [key n hn] at heq
    have hd := congrArg String.data heq
    simp only [] at hd
    have hlen : (Nat.digits 10 n).length = 1 := by
      have := congrArg List.length hd
      simpa using this
    obtain ⟨d, hd1⟩ := List.length_eq_one.mp hlen
    rw [hd1] at hd
    have hdc : Nat.digitChar d = '0' := by simpa using hd
    have hdlt : d < 10 :=
      Nat.digits_lt_base (by norm_num) (hd1 ▸ List.mem_singleton_self d)
    have hd0 : d = 0 := digitChar_inj10 d hdlt 0 (by norm_num)
      (by simpa using hdc)
    have hzero : n = 0 := by
      have h0 := Nat.ofDigits_digits 10 n
      rw [hd1, hd0] at h0
      simpa [Nat.ofDigits] using h0.symm
    exact hn hzero
  intro m n h
  by_cases hm : m = 0 <;> by_cases hn : n = 0
  · rw [hm, hn]
  · subst hm
    exact absurd h.symm (by simpa [pyStrNat] using zeroCase n hn)
  · subst hn
    exact absurd h (by simpa [pyStrNat] using zeroCase m hm)
  · rw [key m hm, key n hn] at h
    have hd : (Nat.digits 10 m).reverse.map Nat.digitChar
        = (Nat.digits 10 n).reverse.map Nat.digitChar := congrArg String.data h
    have hrev : (Nat.digits 10 m).reverse = (Nat.digits 10 n).reverse :=
      map_digitChar_inj _ _
        (fun d hdm => Nat.digits_lt_base (by norm_num)
          (List.mem_reverse.mp hdm))
        (fun d hdn => Nat.digits_lt_base (by norm_num)
          (List.mem_reverse.mp hdn)) hd
    have hdig : Nat.digits 10 m = Nat.digits 10 n :=
      List.reverse_injective hrev
    exact Nat.digits_inj_iff.mp hdig

theorem string_append_cancel_left (p x y : String) (h : p ++ x = p ++ y) :
    x = y := by
  have hd := congrArg String.data h
  simp only [String.data_append] at hd
  exact String.ext (List.append_cancel_left hd)

/-- C6: the backing file name is a function of the identity triplet
(space id, tag string, uniqueness token): equal triplets give equal
names, and for equal space id and tag string, distinct uniqueness tokens
give distinct names. -/
theorem c6_fname_of_triplet (l1 l2 : XYZLayer)
    (hid : l1.space_id_str = l2.space_id_str)
    (htags : l1.tags = l2.tags) :
    (l1.unique = l2.unique → l1.layer_fname = l2.layer_fname) ∧
    (l1.unique ≠ l2.unique → l1.layer_fname ≠ l2.layer_fname) := by
  have hshape : ∀ l : XYZLayer, l.layer_fname =
      (l.space_id_str ++ "_" ++
        (if l.tags.length ≠ 0 then pyReplace l.tags "," "_" else "") ++ "_")
      ++ pyStrNat l.unique := by
    intro l
    rw [XYZLayer.layer_fname, XYZLayer.space_id_str]
  constructor
  · intro hu
    rw [hshape l1, hshape l2, hid, htags, hu]
  · intro hu heq
    rw [hshape l1, hshape l2, hid, htags] at heq
    exact hu (pyStrNat_injective l1.unique l2.unique
      (string_append_cancel_left _ _ _ heq))

/-- C6 witness: two stores over the same space id and tag string whose
uniqueness tokens are 5 and 7 get the same name under an equal token and
different names under the different tokens. -/
theorem c6_witness :
    layerEx.layer_fname = layerEx.layer_fname ∧
    layerEx.layer_fname ≠ layerEx7.layer_fname :=
  ⟨(c6_fname_of_triplet layerEx layerEx rfl rfl).1 rfl,
   (c6_fname_of_triplet layerEx layerEx7 rfl rfl).2 (by decide)⟩

/-! ### Claim C4 — lemmas about the registries and the layer tree -/

theorem getD_optOf (l : List β) : (optOf l).getD [] = l := by
  cases l <;> rfl

theorem optOf_ne_nil (l : List β) (h : l ≠ []) : optOf l = some l := by
  cases l with
  | nil => exact absurd rfl h
  | cons x xs => rfl

theorem combOpt_none (l : List β) : combOpt none l = optOf l := by
  cases l <;> rfl

theorem dlookup_foldl_dappendAt (vs : List VLayer) :
    ∀ (m : List (String × List VLayer)) (k : String),
      dlookup (vs.foldl (fun a v => dappendAt a v.geomStr v) m) k
        = combOpt (dlookup m k) (vs.filter (fun v => v.geomStr == k)) := by
  induction vs with
  | nil =>
    intro m k
    cases h : dlookup m k <;> simp [combOpt, h]
  | cons v vs ih =>
    intro m k
    rw [List.foldl_cons, ih]
    by_cases hk : v.geomStr = k
    · subst hk
      rw [List.filter_cons_of_pos (by simp)]
      rw [dlookup_dappendAt_self]
      cases h : dlookup m v.geomStr <;> simp [combOpt, h]
    · rw [List.filter_cons_of_neg (by simpa using hk)]
      rw [dlookup_dappendAt_ne _ _ _ _ (fun e => hk e.symm)]

theorem loadMaps_fst_inner (vs : List VLayer) :
    ∀ (acc : List (String × List VLayer) × List (String × List Nat)),
      (vs.foldl (fun a v =>
        (dappendAt a.1 v.geomStr v, dappendAt a.2 v.geomStr v.fieldsOf))
        acc).1
      = vs.foldl (fun a v => dappendAt a v.geomStr v) acc.1 := by
  induction vs with
  | nil => intro acc; rfl
  | cons v vs ih =>
    intro acc
    rw [List.foldl_cons, List.foldl_cons, ih]

theorem loadMaps_fst (gs : List QGroup) :
    (loadMaps gs).1 = (flatLayers gs).foldl
      (fun a v => dappendAt a v.geomStr v) [] := by
  have gen : ∀ (acc : List (String × List VLayer) × List (String × List Nat)),
      (gs.foldl (fun a gr => gr.layers.foldl (fun a v =>
        (dappendAt a.1 v.geomStr v, dappendAt a.2 v.geomStr v.fieldsOf)) a)
        acc).1
      = (flatLayers gs).foldl (fun a v => dappendAt a v.geomStr v) acc.1 := by
    induction gs with
    | nil => intro acc; rfl
    | cons gr gs ih =>
      intro acc
      rw [List.foldl_cons, ih, loadMaps_fst_inner, flatLayers,
        List.foldl_append]
  exact gen ([], [])

theorem dlookup_loadMaps (gs : List QGroup) (k : String) :
    dlookup (loadMaps gs).1 k = optOf (perKind k gs) := by
  rw [loadMaps_fst, dlookup_foldl_dappendAt, dlookup_nil, combOpt_none,
    perKind]

theorem flatLayers_append (xs ys : List QGroup) :
    flatLayers (xs ++ ys) = flatLayers xs ++ flatLayers ys := by
  induction xs with
  | nil => rfl
  | cons g xs ih => simp [flatLayers, ih]

theorem mem_flatLayers (u : VLayer) (gs : List QGroup) :
    u ∈ flatLayers gs ↔ ∃ gr ∈ gs, u ∈ gr.layers := by
  induction gs with
  | nil => simp [flatLayers]
  | cons g gs ih => simp [flatLayers, ih]

theorem names_groupAppendFirst (gs : List QGroup) (gname : String)
    (v : VLayer) :
    (groupAppendFirst gs gname v).map QGroup.name = gs.map QGroup.name := by
  induction gs with
  | nil => rfl
  | cons gr gs ih =>
    by_cases h : gr.name == gname
    · simp [groupAppendFirst, h]
    · simp only [groupAppendFirst, h, Bool.false_eq_true, if_false,
        List.map_cons, ih]

theorem grp_name_groupAppendFirst (gs : List QGroup) (gname : String)
    (v : VLayer)
    (hinv : ∀ gr ∈ gs, ∀ u ∈ gr.layers, gr.name = group_geom_name u.geomStr)
    (hv : gname = group_geom_name v.geomStr) :
    ∀ gr ∈ groupAppendFirst gs gname v, ∀ u ∈ gr.layers,
      gr.name = group_geom_name u.geomStr := by
  induction gs with
  | nil => simp [groupAppendFirst]
  | cons g0 gs ih =>
    by_cases h : g0.name == gname
    · simp only [groupAppendFirst, h, if_true]
      intro gr hgr u hu
      rcases List.mem_cons.mp hgr with he | ht
      · subst he
        simp only [] at hu
        rcases List.mem_append.mp hu with h1 | h2
        · exact hinv g0 (by simp) u h1
        · have : u = v := by simpa using h2
          subst this
          have : g0.name = gname := by simpa using h
          rw [this, hv]
      · exact hinv gr (List.mem_cons_of_mem _ ht) u hu
    · simp only [groupAppendFirst, h, Bool.false_eq_true, if_false]
      intro gr hgr u hu
      rcases List.mem_cons.mp hgr with he | ht
      · subst he
        exact hinv gr (by simp) u hu
      · exact ih (fun gr' h' u' hu' =>
          hinv gr' (List.mem_cons_of_mem _ h') u' hu') gr ht u hu


theorem perKind_cons (k : String) (g : QGroup) (gs : List QGroup) :
    perKind k (g :: gs)
      = g.layers.filter (fun u => u.geomStr == k) ++ perKind k gs := by
  simp [perKind, flatLayers, List.filter_append]

theorem perKind_eq_nil_of_not_found (gname : String) (k : String)
    (hgk : group_geom_name k = gname) :
    ∀ gs : List QGroup,
      (∀ gr ∈ gs, ∀ u ∈ gr.layers, gr.name = group_geom_name u.geomStr) →
      gname ∉ gs.map QGroup.name →
      perKind k gs = [] := by
  intro gs hinv hno
  rw [perKind, List.filter_eq_nil]
  intro u hu
  rcases (mem_flatLayers u gs).mp hu with ⟨gr, hgr, hul⟩
  intro heq
  have hk : u.geomStr = k := by simpa using heq
  have hn1 : gr.name = group_geom_name u.geomStr := hinv gr hgr u hul
  have : gr.name = gname := by rw [hn1, hk, hgk]
  exact hno (List.mem_map.mpr ⟨gr, hgr, this⟩)

theorem perKind_groupAppendFirst (gname : String) (v : VLayer)
    (hv : gname = group_geom_name v.geomStr) :
    ∀ gs : List QGroup,
      (gs.find? (fun gr => gr.name == gname)).isSome = true →
      (∀ gr ∈ gs, ∀ u ∈ gr.layers, gr.name = group_geom_name u.geomStr) →
      (gs.map QGroup.name).Nodup →
      ∀ k, perKind k (groupAppendFirst gs gname v)
        = perKind k gs ++ List.filter (fun u => u.geomStr == k) [v] := by
  intro gs
  induction gs with
  | nil =>
    intro hmem
    simp [List.find?] at hmem
  | cons g0 gs ih =>
    intro hmem hinv hnd k
    rw [List.map_cons] at hnd
    have hnd2 := List.nodup_cons.mp hnd
    by_cases h : g0.name == gname
    · rw [show groupAppendFirst (g0 :: gs) gname v
        = { g0 with layers := g0.layers ++ [v] } :: gs from by
          simp [groupAppendFirst, h]]
      rw [perKind_cons, perKind_cons]
      show (g0.layers ++ [v]).filter _ ++ perKind k gs = _
      rw [List.filter_append, List.append_assoc, List.append_assoc]
      congr 1
      by_cases hvk : v.geomStr = k
      · have hg0 : g0.name = gname := by simpa using h
        have hno : gname ∉ gs.map QGroup.name :=
          fun hmm => hnd2.1 (hg0 ▸ hmm)
        have hnil : perKind k gs = [] :=
          perKind_eq_nil_of_not_found gname k
            (by rw [← hvk, ← hv]) gs
            (fun gr hgr => hinv gr (List.mem_cons_of_mem _ hgr)) hno
        rw [hnil]
        simp
      · have hvnil : ([v].filter (fun u => u.geomStr == k)) = [] := by
          rw [List.filter_eq_nil]
          intro u hu
          have : u = v := by simpa using hu
          subst this
          simpa using hvk
        rw [hvnil]
        simp
    · have hmem2 : (gs.find? (fun gr => gr.name == gname)).isSome = true := by
        rw [List.find?] at hmem
        simpa [h] using hmem
      rw [show groupAppendFirst (g0 :: gs) gname v
        = g0 :: groupAppendFirst gs gname v from by
          simp [groupAppendFirst, h]]
      rw [perKind_cons, perKind_cons,
        ih hmem2 (fun gr hgr => hinv gr (List.mem_cons_of_mem _ hgr))
          hnd2.2 k,
        List.append_assoc]

theorem qinsert_append_form (g : QGroup) (gs : List QGroup) :
    gs ++ [g] = qinsert gs.length g gs := by
  simp [qinsert]

theorem flatLayers_qinsert (i : Nat) (g : QGroup) (gs : List QGroup) :
    flatLayers (qinsert i g gs)
      = flatLayers (gs.take i) ++ g.layers ++ flatLayers (gs.drop i) := by
  simp [qinsert, flatLayers_append, flatLayers]

theorem perKind_split (k : String) (i : Nat) (gs : List QGroup) :
    perKind k gs = (flatLayers (gs.take i)).filter (fun u => u.geomStr == k)
      ++ (flatLayers (gs.drop i)).filter (fun u => u.geomStr == k) := by
  rw [perKind]
  rw [show flatLayers gs = flatLayers (gs.take i) ++ flatLayers (gs.drop i)
    from by rw [← flatLayers_append, List.take_append_drop]]
  rw [List.filter_append]

theorem perKind_qinsert_fresh (gname : String) (v : VLayer) (i : Nat)
    (hv : gname = group_geom_name v.geomStr) (gs : List QGroup)
    (hnone : (gs.find? (fun gr => gr.name == gname)).isSome = false)
    (hinv : ∀ gr ∈ gs, ∀ u ∈ gr.layers, gr.name = group_geom_name u.geomStr)
    (k : String) :
    perKind k (qinsert i ⟨gname, [v]⟩ gs)
      = perKind k gs ++ List.filter (fun u => u.geomStr == k) [v] := by
  have hsplit := perKind_split k i gs
  rw [perKind, flatLayers_qinsert, List.filter_append, List.filter_append]
  by_cases hvk : v.geomStr = k
  · have hno : gname ∉ gs.map QGroup.name := by
      intro hmm
      rcases List.mem_map.mp hmm with ⟨gr, hgr, hname⟩
      have : (gs.find? (fun gr => gr.name == gname)).isSome = true :=
        List.find?_isSome.mpr ⟨gr, hgr, by simpa using hname⟩
      rw [this] at hnone
      exact Bool.noConfusion hnone
    have hnil : perKind k gs = [] :=
      perKind_eq_nil_of_not_found gname k (by rw [← hvk, ← hv]) gs hinv hno
    have hboth := hsplit.symm.trans hnil
    rcases List.append_eq_nil.mp hboth with ⟨h1, h2⟩
    rw [h1, h2, hnil]
    simp
  · have hvnil : ([v].filter (fun u => u.geomStr == k)) = [] := by
      rw [List.filter_eq_nil]
      intro u hu
      have : u = v := by simpa using hu
      subst this
      simpa using hvk
    show _ ++ List.filter _ [v] ++ _ = _
    rw [hvnil, hsplit]
    simp

theorem names_qinsert (i : Nat) (g : QGroup) (gs : List QGroup) :
    (qinsert i g gs).map QGroup.name
      = (gs.map QGroup.name).take i ++ g.name ::
        (gs.map QGroup.name).drop i := by
  simp [qinsert, List.map_take, List.map_drop]

theorem nodup_qinsert_fresh (i : Nat) (gname : String) (v : VLayer)
    (gs : List QGroup)
    (hno : gname ∉ gs.map QGroup.name)
    (hnd : (gs.map QGroup.name).Nodup) :
    ((qinsert i ⟨gname, [v]⟩ gs).map QGroup.name).Nodup := by
  rw [names_qinsert]
  apply List.Perm.nodup (List.perm_middle.symm)
  rw [List.take_append_drop]
  exact List.nodup_cons.mpr ⟨hno, hnd⟩

theorem grp_name_qinsert (i : Nat) (gname : String) (v : VLayer)
    (gs : List QGroup)
    (hv : gname = group_geom_name v.geomStr)
    (hinv : ∀ gr ∈ gs, ∀ u ∈ gr.layers,
      gr.name = group_geom_name u.geomStr) :
    ∀ gr ∈ qinsert i ⟨gname, [v]⟩ gs, ∀ u ∈ gr.layers,
      gr.name = group_geom_name u.geomStr := by
  intro gr hgr u hu
  rw [qinsert] at hgr
  rcases List.mem_append.mp hgr with h1 | h2
  · rcases List.mem_append.mp h1 with h3 | h4
    · exact hinv gr (List.take_subset i gs h3) u hu
    · have : gr = ⟨gname, [v]⟩ := by simpa using h4
      subst this
      have : u = v := by simpa using hu
      subst this
      exact hv
  · exact hinv gr (List.drop_subset i gs h2) u hu

theorem add_empty_group_none (st : LState) (h : st.main = none) :
    add_empty_group st =
      { layer := { st.layer with
          group_name := st.layer.make_group_name none },
        main := some (XYZLayer.save_meta_node
          { st.layer with group_name := st.layer.make_group_name none }
          { nodeName := st.layer.make_group_name none, props := [],
            groups := [] }) } := by
  unfold add_empty_group
  rw [h]

theorem add_empty_group_some (st : LState) (g : QNode)
    (h : st.main = some g) : add_empty_group st = st := by
  unfold add_empty_group
  rw [h]

theorem addLayerToGroup_nil (gname : String) (v : VLayer)
    (ord : Option Nat) :
    addLayerToGroup [] gname v ord = [⟨gname, [v]⟩] := by
  cases ord <;> simp [addLayerToGroup, qinsert, List.find?]

theorem addLayerToGroup_found (gs : List QGroup) (gname : String)
    (v : VLayer) (ord : Option Nat)
    (h : (gs.find? (fun gr => gr.name == gname)).isSome = true) :
    addLayerToGroup gs gname v ord = groupAppendFirst gs gname v := by
  simp [addLayerToGroup, h]

theorem addLayerToGroup_fresh (gs : List QGroup) (gname : String)
    (v : VLayer) (ord : Option Nat)
    (h : (gs.find? (fun gr => gr.name == gname)).isSome = false) :
    ∃ i, addLayerToGroup gs gname v ord = qinsert i ⟨gname, [v]⟩ gs := by
  cases ord with
  | none =>
    exact ⟨gs.length, by simp [addLayerToGroup, h, ← qinsert_append_form]⟩
  | some i => exact ⟨i, by simp [addLayerToGroup, h]⟩

theorem add_ext_layer_next_eq (st : LState) (gstr : String) :
    add_ext_layer_next st gstr =
      match (stepMid st gstr).main with
      | none => Except.error "no main group"
      | some g => Except.ok
          { layer := (stepMid st gstr).layer,
            main := some { g with
              groups := addLayerToGroup g.groups (group_geom_name gstr)
                (newVLayer st gstr)
                (dlookup GEOM_ORDER (group_geom_name gstr)) } } := by
  unfold add_ext_layer_next add_ext_layer XYZLayer.add_layer stepMid
    newVLayer
  dsimp only
  rw [if_pos rfl]

theorem save_meta_node_fresh_props (l : XYZLayer) (nm : String) :
    (l.save_meta_node { nodeName := nm, props := [], groups := [] }).props
      = savedProps l.conn_info l.meta l.tags l.unique := rfl

theorem save_meta_node_fresh_groups (l : XYZLayer) (nm : String) :
    (l.save_meta_node { nodeName := nm, props := [], groups := [] }).groups
      = [] := rfl

theorem step_inv (c : SpaceConnectionInfo) (m : PyObj) (t : String)
    (u : Nat) (st : LState) (gstr : String) (inv : MainInv c m t u st) :
    ∃ st' g', add_ext_layer_next st gstr = .ok st' ∧ st'.main = some g' ∧
      MainInv c m t u st' := by
  rw [add_ext_layer_next_eq]
  have hvg : (newVLayer st gstr).geomStr = gstr := rfl
  cases hmain : st.main with
  | none =>
    have hm0 : ({ st with layer := { st.layer with
        map_vlayer := dappendAt st.layer.map_vlayer gstr
          (newVLayer st gstr) } } : LState).main = none := hmain
    rw [show stepMid st gstr = _ from by
      rw [stepMid, add_empty_group_none _ hm0]]
    dsimp only
    refine ⟨_, _, rfl, rfl, ?_⟩
    have hmv : st.layer.map_vlayer = [] := inv.main_none hmain
    refine {
      conn_eq := inv.conn_eq,
      meta_eq := inv.meta_eq,
      tags_eq := inv.tags_eq,
      unique_eq := inv.unique_eq,
      main_none := fun h => Option.noConfusion h,
      reg_eq := ?_, grp_name := ?_, grp_nodup := ?_, props_eq := ?_ }
    · intro g2 hg2 k
      have hg := Option.some.inj hg2
      rw [← hg]
      dsimp only
      rw [save_meta_node_fresh_groups, addLayerToGroup_nil, hmv]
      rw [show dappendAt [] gstr (newVLayer st gstr)
        = [(gstr, [newVLayer st gstr])] from rfl]
      rw [perKind_cons]
      by_cases hk : gstr = k
      · subst hk
        rw [dlookup_cons]
        have hb : (gstr == gstr) = true := by simp
        rw [hb]
        simp only [if_true]
        rw [show ([newVLayer st gstr].filter
            (fun u => u.geomStr == gstr)) = [newVLayer st gstr] from by
          simp [hvg]]
        rfl
      · rw [dlookup_cons]
        have hb : (gstr == k) = false := by simpa using hk
        rw [hb]
        simp only [Bool.false_eq_true, if_false]
        rw [show ([newVLayer st gstr].filter
            (fun u => u.geomStr == k)) = [] from by
          simp [hvg]
          simpa using hk]
        rfl
    · intro g2 hg2 gr hgr u2 hu2
      have hg := Option.some.inj hg2
      rw [← hg] at hgr
      dsimp only at hgr
      rw [save_meta_node_fresh_groups, addLayerToGroup_nil] at hgr
      have : gr = ⟨group_geom_name gstr, [newVLayer st gstr]⟩ := by
        simpa using hgr
      subst this
      have : u2 = newVLayer st gstr := by simpa using hu2
      subst this
      rfl
    · intro g2 hg2
      have hg := Option.some.inj hg2
      rw [← hg]
      dsimp only
      rw [save_meta_node_fresh_groups, addLayerToGroup_nil]
      simp
    · intro g2 hg2
      have hg := Option.some.inj hg2
      rw [← hg]
      dsimp only
      rw [show ({ XYZLayer.save_meta_node { st.layer with
          map_vlayer := dappendAt st.layer.map_vlayer gstr
            (newVLayer st gstr),
          group_name := ({ st.layer with
            map_vlayer := dappendAt st.layer.map_vlayer gstr
              (newVLayer st gstr) } : XYZLayer).make_group_name none }
          { nodeName := ({ st.layer with
            map_vlayer := dappendAt st.layer.map_vlayer gstr
              (newVLayer st gstr) } : XYZLayer).make_group_name none,
            props := [], groups := [] } with
          groups := addLayerToGroup [] (group_geom_name gstr)
            (newVLayer st gstr)
            (dlookup GEOM_ORDER (group_geom_name gstr)) } : QNode).props
        = savedProps st.layer.conn_info st.layer.meta st.layer.tags
            st.layer.unique from rfl]
      rw [inv.conn_eq, inv.meta_eq, inv.tags_eq, inv.unique_eq]
  | some g =>
    have hm0 : ({ st with layer := { st.layer with
        map_vlayer := dappendAt st.layer.map_vlayer gstr
          (newVLayer st gstr) } } : LState).main = some g := hmain
    rw [show stepMid st gstr = _ from by
      rw [stepMid, add_empty_group_some _ g hm0]]
    dsimp only
    rw [hmain]
    refine ⟨_, _, rfl, rfl, ?_⟩
    have reg := inv.reg_eq g hmain
    have gnm := inv.grp_name g hmain
    have nd := inv.grp_nodup g hmain
    have pr := inv.props_eq g hmain
    have hv : group_geom_name gstr
        = group_geom_name (newVLayer st gstr).geomStr := rfl
    have hpk : ∀ k, perKind k (addLayerToGroup g.groups
        (group_geom_name gstr) (newVLayer st gstr)
        (dlookup GEOM_ORDER (group_geom_name gstr)))
        = perKind k g.groups ++ List.filter
          (fun u => u.geomStr == k) [newVLayer st gstr] := by
      by_cases hfind : (g.groups.find? (fun gr =>
          gr.name == group_geom_name gstr)).isSome = true
      · rw [addLayerToGroup_found _ _ _ _ hfind]
        exact perKind_groupAppendFirst _ _ hv g.groups hfind gnm nd
      · have hfind2 : (g.groups.find? (fun gr =>
            gr.name == group_geom_name gstr)).isSome = false := by
          simpa using hfind
        obtain ⟨i, hi⟩ := addLayerToGroup_fresh g.groups _
          (newVLayer st gstr) (dlookup GEOM_ORDER (group_geom_name gstr))
          hfind2
        rw [hi]
        intro k
        exact perKind_qinsert_fresh _ _ i hv g.groups hfind2 gnm k
    have hnames : ∀ k, dlookup (dappendAt st.layer.map_vlayer gstr
        (newVLayer st gstr)) k
        = optOf (perKind k (addLayerToGroup g.groups
          (group_geom_name gstr) (newVLayer st gstr)
          (dlookup GEOM_ORDER (group_geom_name gstr)))) := by
      intro k
      rw [hpk k]
      by_cases hk : gstr = k
      · subst hk
        rw [dlookup_dappendAt_self, reg gstr, getD_optOf]
        rw [show ([newVLayer st gstr].filter
            (fun u => u.geomStr == gstr)) = [newVLayer st gstr] from by
          simp [hvg]]
        rw [optOf_ne_nil _ (by simp)]
      · rw [dlookup_dappendAt_ne _ _ _ _ (fun e => hk e.symm), reg k]
        rw [show ([newVLayer st gstr].filter
            (fun u => u.geomStr == k)) = [] from by
          simp [hvg]
          simpa using hk]
        rw [List.append_nil]
    refine {
      conn_eq := inv.conn_eq,
      meta_eq := inv.meta_eq,
      tags_eq := inv.tags_eq,
      unique_eq := inv.unique_eq,
      main_none := fun h => Option.noConfusion h,
      reg_eq := ?_, grp_name := ?_, grp_nodup := ?_, props_eq := ?_ }
    · intro g2 hg2 k
      have hg := Option.some.inj hg2
      rw [← hg]
      exact hnames k
    · intro g2 hg2
      have hg := Option.some.inj hg2
      rw [← hg]
      dsimp only
      by_cases hfind : (g.groups.find? (fun gr =>
          gr.name == group_geom_name gstr)).isSome = true
      · rw [addLayerToGroup_found _ _ _ _ hfind]
        exact grp_name_groupAppendFirst g.groups _ _ gnm hv
      · have hfind2 : (g.groups.find? (fun gr =>
            gr.name == group_geom_name gstr)).isSome = false := by
          simpa using hfind
        obtain ⟨i, hi⟩ := addLayerToGroup_fresh g.groups _
          (newVLayer st gstr) (dlookup GEOM_ORDER (group_geom_name gstr))
          hfind2
        rw [hi]
        exact grp_name_qinsert i _ _ g.groups hv gnm
    · intro g2 hg2
      have hg := Option.some.inj hg2
      rw [← hg]
      dsimp only
      by_cases hfind : (g.groups.find? (fun gr =>
          gr.name == group_geom_name gstr)).isSome = true
      · rw [addLayerToGroup_found _ _ _ _ hfind,
          names_groupAppendFirst]
        exact nd
      · have hfind2 : (g.groups.find? (fun gr =>
            gr.name == group_geom_name gstr)).isSome = false := by
          simpa using hfind
        obtain ⟨i, hi⟩ := addLayerToGroup_fresh g.groups _
          (newVLayer st gstr) (dlookup GEOM_ORDER (group_geom_name gstr))
          hfind2
        rw [hi]
        apply nodup_qinsert_fresh _ _ _ _ ?hno nd
        intro hmm
        rcases List.mem_map.mp hmm with ⟨gr, hgr, hname⟩
        have : (g.groups.find? (fun gr =>
            gr.name == group_geom_name gstr)).isSome = true :=
          List.find?_isSome.mpr ⟨gr, hgr, by simpa using hname⟩
        rw [this] at hfind2
        exact Bool.noConfusion hfind2
    · intro g2 hg2
      have hg := Option.some.inj hg2
      rw [← hg]
      dsimp only
      exact pr

theorem runAdds_inv (c : SpaceConnectionInfo) (m : PyObj) (t : String)
    (u : Nat) :
    ∀ (ops : List String) (st : LState), MainInv c m t u st →
      ∃ st', runAdds st ops = .ok st' ∧ MainInv c m t u st' ∧
        ((ops ≠ [] ∨ st.main ≠ none) → ∃ g', st'.main = some g') := by
  intro ops
  induction ops with
  | nil =>
    intro st inv
    refine ⟨st, rfl, inv, ?_⟩
    intro h
    rcases h with h | h
    · exact absurd rfl h
    · cases hs : st.main with
      | none => exact absurd hs h
      | some g => exact ⟨g, rfl⟩
  | cons gstr ops ih =>
    intro st inv
    obtain ⟨st1, g1, hstep, hmain1, inv1⟩ := step_inv c m t u st gstr inv
    obtain ⟨st', hrun, inv', hmm⟩ := ih st1 inv1
    refine ⟨st', ?_, inv', ?_⟩
    · rw [runAdds, hstep]
      exact hrun
    · intro _
      exact hmm (Or.inr (by rw [hmain1]; exact fun e => Option.noConfusion e))

theorem init_inv (conn : SpaceConnectionInfo) (meta : PyObj) (tags : String)
    (uniqueArg : Option Nat) (gname ext : String) (now10 : Nat) :
    MainInv conn meta tags
      (XYZLayer.init conn meta tags uniqueArg gname ext now10).unique
      ⟨XYZLayer.init conn meta tags uniqueArg gname ext now10, none⟩ := by
  refine {
    conn_eq := rfl,
    meta_eq := rfl,
    tags_eq := rfl,
    unique_eq := rfl,
    main_none := fun _ => rfl,
    reg_eq := fun g h => Option.noConfusion h,
    grp_name := fun g h => Option.noConfusion h,
    grp_nodup := fun g h => Option.noConfusion h,
    props_eq := fun g h => Option.noConfusion h }

theorem from_dict_to_dict (c : SpaceConnectionInfo) :
    SpaceConnectionInfo.from_dict (SpaceConnectionInfo.to_dict c)
      = some c := rfl

theorem load_of_inv (c : SpaceConnectionInfo) (m : PyObj) (t : String)
    (u : Nat) (st : LState) (g : QNode) (now2 : Nat)
    (inv : MainInv c m t u st) (hg : st.main = some g) (hu : u ≠ 0) :
    ∃ l2, XYZLayer.load_from_qnode g now2 = some l2 ∧
      l2.conn_info = c ∧ l2.meta = m ∧ l2.tags = t ∧ l2.unique = u ∧
      ∀ k, dlookup l2.map_vlayer k = dlookup st.layer.map_vlayer k := by
  have hprops := inv.props_eq g hg
  have h1 : g.customProperty "xyz-hub" = some (.vjson (json_dumps m)) := by
    rw [QNode.customProperty, hprops]
    rfl
  have h2 : g.customProperty "xyz-hub-conn"
      = some (.vjson (json_dumps c.to_dict)) := by
    rw [QNode.customProperty, hprops]
    rfl
  have h3 : g.customProperty "xyz-hub-tags" = some (.vstr t) := by
    rw [QNode.customProperty, hprops]
    rfl
  have h4 : g.customProperty "xyz-hub-id" = some (.vnat u) := by
    rw [QNode.customProperty, hprops]
    rfl
  rw [XYZLayer.load_from_qnode, h1, h2, h3, h4]
  simp only [json_loads, json_dumps]
  rw [from_dict_to_dict]
  refine ⟨_, rfl, rfl, rfl, rfl, ?_, ?_⟩
  · show (XYZLayer.init c m t (some u)
      g.nodeName "gpkg" now2).unique = u
    rw [XYZLayer.init]
    dsimp only
    rw [if_neg hu]
  · intro k
    show dlookup (loadMaps g.groups).1 k = _
    rw [dlookup_loadMaps, ← inv.reg_eq g hg k]

theorem layer_fname_congr (l1 l2 : XYZLayer) (hm : l1.meta = l2.meta)
    (ht : l1.tags = l2.tags) (hu : l1.unique = l2.unique) :
    l1.layer_fname = l2.layer_fname := by
  rw [XYZLayer.layer_fname, XYZLayer.layer_fname, hm, ht, hu]

/-- C4: for any store freshly constructed from its provenance
(connection descriptor, space metadata, tag string, uniqueness token)
and any non-empty sequence of partition creations, the provenance saved
on the main layer-tree group by `_save_meta_node` reloads through
`load_from_qnode` into a store with the same connection descriptor,
space metadata, tag string and uniqueness token — hence the same derived
backing file name — and with the identical ordered partition list for
every geometry kind.  (The uniqueness token must be non-zero, as the
constructor's `unique or int(time.time()*10)` idiom replaces a zero
token; tokens produced by the clock are non-zero.) -/
theorem c4_provenance_roundtrip (conn : SpaceConnectionInfo) (meta : PyObj)
    (tags : String) (uniqueArg : Option Nat) (gname ext : String)
    (now10 : Nat) (ops : List String) (now2 : Nat)
    (hops : ops ≠ [])
    (hu : (XYZLayer.init conn meta tags uniqueArg gname ext now10).unique
      ≠ 0) :
    ∃ st g l2,
      runAdds ⟨XYZLayer.init conn meta tags uniqueArg gname ext now10,
        none⟩ ops = .ok st ∧
      st.main = some g ∧
      XYZLayer.load_from_qnode g now2 = some l2 ∧
      l2.conn_info = st.layer.conn_info ∧
      l2.meta = st.layer.meta ∧
      l2.tags = st.layer.tags ∧
      l2.unique = st.layer.unique ∧
      l2.layer_fname = st.layer.layer_fname ∧
      ∀ k, dlookup l2.map_vlayer k = dlookup st.layer.map_vlayer k := by
  obtain ⟨st, hrun, inv, hmm⟩ := runAdds_inv conn meta tags
    (XYZLayer.init conn meta tags uniqueArg gname ext now10).unique ops
    ⟨XYZLayer.init conn meta tags uniqueArg gname ext now10, none⟩
    (init_inv conn meta tags uniqueArg gname ext now10)
  obtain ⟨g, hg⟩ := hmm (Or.inl hops)
  obtain ⟨l2, hload, hc, hm, ht, hun, hmv⟩ := load_of_inv conn meta tags
    (XYZLayer.init conn meta tags uniqueArg gname ext now10).unique
    st g now2 inv hg hu
  refine ⟨st, g, l2, hrun, hg, hload, ?_, ?_, ?_, ?_, ?_, hmv⟩
  · rw [hc, inv.conn_eq]
  · rw [hm, inv.meta_eq]
  · rw [ht, inv.tags_eq]
  · rw [hun, inv.unique_eq]
  · exact layer_fname_congr l2 st.layer (by rw [hm, inv.meta_eq])
      (by rw [ht, inv.tags_eq]) (by rw [hun, inv.unique_eq])

/-- C4 witness: a fresh store for a concrete space with one Point
partition saves and reloads to the same identity, file name and
partition list. -/
theorem c4_witness :
    ∃ st g l2,
      runAdds ⟨XYZLayer.init connEx metaEx "" none "XYZ Hub Layer" "gpkg"
        5, none⟩ ["Point"] = .ok st ∧
      st.main = some g ∧
      XYZLayer.load_from_qnode g 99 = some l2 ∧
      l2.conn_info = st.layer.conn_info ∧
      l2.meta = st.layer.meta ∧
      l2.tags = st.layer.tags ∧
      l2.unique = st.layer.unique ∧
      l2.layer_fname = st.layer.layer_fname ∧
      ∀ k, dlookup l2.map_vlayer k = dlookup st.layer.map_vlayer k :=
  c4_provenance_roundtrip connEx metaEx "" none "XYZ Hub Layer" "gpkg" 5
    ["Point"] 99 (by simp) (by decide)
